import Mathlib

/-!
Shallow embedding of `ortools/routing/samples/cvrptw_soft_capacity.cc`
(soft-capacitated vehicle routing sample): instance generation (locations,
demands, time windows) and routing-model configuration (cost callback,
Capacity and Time dimensions, soft upper bounds, disjunctions, soft
same-vehicle groups), together with the check/construct/solve ordering of
`main`.

Helper classes (`LocationContainer`, `RandomDemand`,
`ServiceTimePlusTransition`, `GetSeed`) live in `ortools/routing/cvrptw_lib`
and are not part of the sources at hand; they are modelled from the design
document, as marked in their doc comments.
-/

namespace OrToolsCvrptw

/-- Modelled from the spec: a pseudo-random stream with explicit state
(§5: each generator component owns an independent stream, a deterministic
function of its seed). -/
structure RngState where
  state : Nat
deriving DecidableEq, Repr

/-- Modelled from the spec: one step of the pseudo-random stream, returning
a draw and the advanced state. The concrete step is a small linear
congruential update (Lehmer-style, modulus 65537) standing in for the
unspecified generator; only determinism and range of the draws matter to the
properties below. -/
def rngNext (g : RngState) : Nat × RngState :=
  let s := (g.state * 75 + 74) % 65537
  (s, RngState.mk s)

/-- Modelled from the spec: a draw in `[0, hi)` (the half-open integer
sampling primitive used for uniform draws). -/
def uniformBelow (g : RngState) (hi : Nat) : Nat × RngState :=
  let p := rngNext g
  (p.1 % hi, p.2)

/-- Modelled from the spec: the fixed seed used when deterministic seeding is
requested (`GetSeed` in `cvrptw_lib`, not under the sources at hand). -/
def kDeterministicSeed : Nat := 0

/-- Modelled from the spec: seeded deterministically if the reproducibility
flag is set, otherwise seeded from a non-deterministic source (modelled as
the `entropy` argument). -/
def GetSeed (deterministic : Bool) (entropy : Nat) : Nat :=
  if deterministic then kDeterministicSeed else entropy

/-- A 2-D integer coordinate (coordinates are drawn in `[0, xMax]×[0, yMax]`,
so naturals suffice). -/
structure Location where
  x : Nat
  y : Nat
deriving DecidableEq, Repr

/-- Manhattan distance between two locations. -/
def Location.DistanceToLocation (a b : Location) : Nat :=
  Nat.dist a.x b.x + Nat.dist a.y b.y

/-- Modelled from the spec: travel time between two locations. §9 records
that the source rounds travel time via integer division of the distance by
the speed, i.e. rounding down (`Location::TimeToLocation` in `cvrptw_lib`,
not under the sources at hand). -/
def Location.TimeToLocation (speed : Nat) (a b : Location) : Nat :=
  Location.DistanceToLocation a b / speed

/-- Modelled from the spec: container of node coordinates with a speed
constant and its own pseudo-random stream (`LocationContainer` in
`cvrptw_lib`, not under the sources at hand). -/
structure LocationContainer where
  speed : Nat
  locations : List Location
  rng : RngState
deriving DecidableEq, Repr

/-- Modelled from the spec: appends a node at a uniformly random integer
coordinate in `[0, xMax] × [0, yMax]`. -/
def LocationContainer.AddRandomLocation (c : LocationContainer) (xMax yMax : Nat) :
    LocationContainer :=
  let px := uniformBelow c.rng (xMax + 1)
  let py := uniformBelow px.2 (yMax + 1)
  { speed := c.speed
    locations := c.locations ++ [Location.mk px.1 py.1]
    rng := py.2 }

/-- Manhattan distance between the stored locations of nodes `i` and `j`. -/
def LocationContainer.ManhattanDistance (c : LocationContainer) (i j : Nat) : Nat :=
  Location.DistanceToLocation (c.locations.getD i (Location.mk 0 0))
    (c.locations.getD j (Location.mk 0 0))

/-- Modelled from the spec: travel time between nodes `i` and `j` at the
container's speed (distance divided by speed, rounding down per §9). -/
def LocationContainer.ManhattanTime (c : LocationContainer) (i j : Nat) : Nat :=
  Location.TimeToLocation c.speed (c.locations.getD i (Location.mk 0 0))
    (c.locations.getD j (Location.mk 0 0))

/-- Modelled from the spec: lower end of the fixed positive demand range
(§4.2; `RandomDemand` in `cvrptw_lib`, not under the sources at hand, whose
exact range the spec leaves open). -/
def kDemandMin : Nat := 1

/-- Modelled from the spec: width parameter of the fixed positive demand
range (§4.2). -/
def kDemandMax : Nat := 25

/-- Modelled from the spec: demands for nodes `node, node+1, ...` (`count`
of them): the depot (node `0`) gets demand `0`, every other node a
pseudo-random demand in the fixed positive range. -/
def demandsGo : Nat → Nat → RngState → List Nat
  | 0, _, _ => []
  | n + 1, node, g =>
    if node = 0 then
      0 :: demandsGo n (node + 1) g
    else
      let p := uniformBelow g (kDemandMax - kDemandMin + 1)
      (kDemandMin + p.1) :: demandsGo n (node + 1) p.2

/-- Modelled from the spec: per-node pseudo-random demands, depot fixed at
zero, own stream (`RandomDemand` in `cvrptw_lib`, not under the sources at
hand). -/
structure RandomDemand where
  demand : List Nat
deriving DecidableEq, Repr

/-- Modelled from the spec: builds the demand table for `size` nodes from
the component's own stream. -/
def RandomDemand.setup (size : Nat) (seed : Nat) : RandomDemand :=
  RandomDemand.mk (demandsGo size 0 (RngState.mk seed))

/-- Modelled from the spec (§4.2): the two-argument demand callback returns
the demand associated with the destination node `j`. -/
def RandomDemand.Demand (rd : RandomDemand) (_i j : Nat) : Nat :=
  rd.demand.getD j 0

/-- The demand stored for a single node. -/
def RandomDemand.atNode (rd : RandomDemand) (i : Nat) : Nat :=
  rd.demand.getD i 0

/-- Modelled from the spec (§4.3): the service-plus-travel time model. The
spec gives `Compute(i, j) = serviceTimePerDemandUnit × Demand(i) +
TravelTime(i, j)` with the demand term taken at the origin node `i`, so the
class is modelled with the per-node demand view that this formula consumes
(`ServiceTimePlusTransition` in `cvrptw_lib`, not under the sources at
hand). -/
structure ServiceTimePlusTransition where
  time_per_demand_unit : Nat
  demandAt : Nat → Nat
  travel : Nat → Nat → Nat

/-- Modelled from the spec (§4.3): `Compute(i, j) =
serviceTimePerDemandUnit × Demand(i) + TravelTime(i, j)`; service time is
incurred at the origin node before departing, additive with travel time. -/
def ServiceTimePlusTransition.Compute (s : ServiceTimePlusTransition) (i j : Nat) : Nat :=
  s.time_per_demand_unit * s.demandAt i + s.travel i j

/-! ### Constants of the sample (`cvrptw_soft_capacity.cc`) -/

def kXMax : Nat := 100000
def kYMax : Nat := 100000
def kSpeed : Nat := 10
def kNullCapacitySlack : Nat := 0
def kTimePerDemandUnit : Nat := 300
def kHorizon : Nat := 24 * 3600
def kTWDuration : Nat := 5 * 3600
def kPenalty : Int := 10000000
def kMaxNodesPerGroup : Nat := 10
def kSameVehicleCost : Int := 1000

/-- The command-line flags of the sample (C++ `int` flags modelled as `Int`,
the search-parameter override abstracted to whether its text parses). -/
structure Config where
  vrp_orders : Int
  vrp_vehicles : Int
  vrp_vehicle_hard_capacity : Int
  vrp_vehicle_soft_capacity : Int
  vrp_vehicle_soft_capacity_cost : Int
  vrp_use_deterministic_random_seed : Bool
  vrp_use_same_vehicle_costs : Bool
  routing_search_parameters_ok : Bool
deriving DecidableEq, Repr

/-- The seed every generator component is constructed from (each component
then advances its own copy of the stream). -/
def instanceSeed (cfg : Config) (entropy : Nat) : Nat :=
  GetSeed cfg.vrp_use_deterministic_random_seed entropy

/-- `n` iterations of the location loop: each appends one random location in
`[0, kXMax] × [0, kYMax]` to the container. -/
def addLocationsGo : Nat → LocationContainer → LocationContainer
  | 0, c => c
  | n + 1, c => addLocationsGo n (c.AddRandomLocation kXMax kYMax)

/-- The location container after the sample's loop over all
`vrp_orders + 1` nodes (node `0`, the depot, included). -/
def instanceLocations (cfg : Config) (entropy : Nat) : LocationContainer :=
  addLocationsGo (cfg.vrp_orders.toNat + 1)
    (LocationContainer.mk kSpeed [] (RngState.mk (instanceSeed cfg entropy)))

/-- The demand table of the instance (`manager.num_nodes()` nodes, depot
`0`). -/
def instanceDemand (cfg : Config) (entropy : Nat) : RandomDemand :=
  RandomDemand.setup (cfg.vrp_orders.toNat + 1) (instanceSeed cfg entropy)

/-- Time windows of orders `order, order+1, ...` (`count` of them): each
start is drawn in `[0, kHorizon - kTWDuration)` and the window is
`[start, start + kTWDuration]`. -/
def windowsGo : Nat → Nat → RngState → List (Nat × Nat × Nat)
  | 0, _, _ => []
  | n + 1, order, g =>
    let p := uniformBelow g (kHorizon - kTWDuration)
    (order, p.1, p.1 + kTWDuration) :: windowsGo n (order + 1) p.2

/-- The time windows drawn for orders `1 .. vrp_orders` from the window
randomizer's own stream. -/
def instanceTimeWindows (cfg : Config) (entropy : Nat) : List (Nat × Nat × Nat) :=
  windowsGo cfg.vrp_orders.toNat 1 (RngState.mk (instanceSeed cfg entropy))

/-- The orders `o, o+1, ..., o+n-1` in index order. -/
def ordersFrom : Nat → Nat → List Nat
  | 0, _ => []
  | n + 1, o => o :: ordersFrom n (o + 1)

/-- The same-vehicle grouping loop: orders `o, o+1, ...` (`n` of them) are
appended to the current group `cur`; a group is flushed when it reaches
`kMaxNodesPerGroup` nodes, and a non-empty trailing group is flushed at the
end. -/
def groupsGo : Nat → Nat → List Nat → List (List Nat)
  | 0, _, cur => if cur.isEmpty then [] else [cur]
  | n + 1, o, cur =>
    let g := cur ++ [o]
    if g.length = kMaxNodesPerGroup then
      g :: groupsGo n (o + 1) []
    else
      groupsGo n (o + 1) g

/-- A declared routing dimension: name, registered transit-callback index,
slack bound, cumulative upper bound and whether the start cumul is fixed to
zero. `AddDimension` records the capacity argument as the dimension's
cumulative upper bound (spec §6: dimension declarations carry their bounds
and slacks). -/
structure RoutingDimensionRec where
  name : String
  evaluator : Nat
  slack_max : Int
  capacity : Int
  fix_start_cumul_to_zero : Bool
deriving DecidableEq, Repr

/-- A soft upper bound attached to a cumulative variable:
`SetCumulVarSoftUpperBound(index, bound, coefficient)`. -/
structure SoftUpperBound where
  index : Nat
  bound : Int
  coefficient : Int
deriving DecidableEq, Repr

/-- Modelled from the spec (§4.5 step 4): the cost a soft upper bound incurs
at a resolved cumulative value: `max(0, cumulative − softThreshold) ×
perUnitCost`. -/
def softUpperBoundCost (s : SoftUpperBound) (cumul : Int) : Int :=
  max 0 (cumul - s.bound) * s.coefficient

/-- Modelled from the spec: the index-manager's variable index of vehicle
`v`'s route end (a distinct index past the `N + 1` node indices). -/
def routeEndIndex (cfg : Config) (v : Nat) : Nat :=
  cfg.vrp_orders.toNat + 1 + v

/-- The fully configured routing model, as assembled by `main` after the
flag checks: the registered transit callbacks (in registration order:
arc cost, capacity transit, time transit), the arc-cost evaluator, the two
dimensions, the per-vehicle soft upper bounds on route-end capacity cumuls,
the time windows, the disjunctions and the optional same-vehicle groups. -/
structure RoutingModelState where
  callbacks : List (Nat → Nat → Nat)
  arc_cost_evaluator : Option Nat
  dimensions : List RoutingDimensionRec
  soft_upper_bounds : List SoftUpperBound
  time_windows : List (Nat × Nat × Nat)
  disjunctions : List (List Nat × Int)
  same_vehicle_groups : List (List Nat × Int)

/-- The arc-cost callback registered first (index `0`): Manhattan distance
between the nodes. -/
def distanceCallback (cfg : Config) (entropy : Nat) : Nat → Nat → Nat :=
  fun i j => (instanceLocations cfg entropy).ManhattanDistance i j

/-- The capacity transit callback registered second (index `1`): the demand
callback. -/
def demandCallback (cfg : Config) (entropy : Nat) : Nat → Nat → Nat :=
  fun i j => (instanceDemand cfg entropy).Demand i j

/-- The time transit callback registered third (index `2`):
`ServiceTimePlusTransition::Compute` over the instance demands and travel
times. -/
def timeCallback (cfg : Config) (entropy : Nat) : Nat → Nat → Nat :=
  fun i j =>
    (ServiceTimePlusTransition.mk kTimePerDemandUnit
      ((instanceDemand cfg entropy).atNode)
      ((instanceLocations cfg entropy).ManhattanTime)).Compute i j

/-- The Capacity dimension as declared by
`routing.AddDimension(demand callback, kNullCapacitySlack,
vrp_vehicle_hard_capacity, fix_start_cumul_to_zero := true, "Capacity")`:
the flag value is passed to `AddDimension` unchanged. -/
def capacityDimension (cfg : Config) : RoutingDimensionRec :=
  { name := "Capacity"
    evaluator := 1
    slack_max := (kNullCapacitySlack : Int)
    capacity := cfg.vrp_vehicle_hard_capacity
    fix_start_cumul_to_zero := true }

/-- The Time dimension as declared by `routing.AddDimension(time callback,
kHorizon, kHorizon, fix_start_cumul_to_zero := true, "Time")`. -/
def timeDimension : RoutingDimensionRec :=
  { name := "Time"
    evaluator := 2
    slack_max := (kHorizon : Int)
    capacity := (kHorizon : Int)
    fix_start_cumul_to_zero := true }

/-- The model assembled by `main` after the flag checks (the construction
phase of the sample, in source order). The soft-upper-bound loop runs over
every vehicle unconditionally, the disjunction loop over every non-depot
node, and the grouping loop only under `vrp_use_same_vehicle_costs`. -/
def buildModel (cfg : Config) (entropy : Nat) : RoutingModelState :=
  { callbacks := [distanceCallback cfg entropy, demandCallback cfg entropy,
      timeCallback cfg entropy]
    arc_cost_evaluator := some 0
    dimensions := [capacityDimension cfg, timeDimension]
    soft_upper_bounds :=
      (List.range cfg.vrp_vehicles.toNat).map fun v =>
        { index := routeEndIndex cfg v
          bound := cfg.vrp_vehicle_soft_capacity
          coefficient := cfg.vrp_vehicle_soft_capacity_cost }
    time_windows := instanceTimeWindows cfg entropy
    disjunctions :=
      (List.range cfg.vrp_orders.toNat).map fun k => ([k + 1], kPenalty)
    same_vehicle_groups :=
      if cfg.vrp_use_same_vehicle_costs then
        (groupsGo cfg.vrp_orders.toNat 1 []).map fun g => (g, kSameVehicleCost)
      else [] }

/-- The observable steps of `main`, in source order: the three eager flag
checks, the construction of the index manager / model / instance, the
search-parameter parse check, and the solve call. -/
inductive MainStep where
  | check_orders
  | check_vehicles
  | check_capacities
  | construct_model
  | check_search_parameters
  | solve
deriving DecidableEq, Repr

/-- How the process ends: a failed `CHECK` aborts with a message (non-zero
status), otherwise `main` reaches the solver. -/
inductive MainOutcome where
  | fatal (message : String)
  | finished
deriving DecidableEq, Repr

/-- Modelled from the spec (§7): the process exit status, non-zero on a
failed check. -/
def MainOutcome.exitStatus : MainOutcome → Nat
  | .fatal _ => 1
  | .finished => 0

/-- The tail of `main` after the three eager checks: construct the model,
then parse the search-parameter override (`CHECK(MergeFromString(...))`),
then solve. -/
def afterChecks (cfg : Config) (pre : List MainStep) : List MainStep × MainOutcome :=
  let t := pre ++ [MainStep.construct_model, MainStep.check_search_parameters]
  if cfg.routing_search_parameters_ok then
    (t ++ [MainStep.solve], MainOutcome.finished)
  else
    (t, MainOutcome.fatal "protobuf TextFormat MergeFromString failed")

/-- The control flow of `main`: `CHECK_LT(0, vrp_orders)`,
`CHECK_LT(0, vrp_vehicles)`, then — only when both capacities are positive —
`CHECK_LT(soft, hard)`; on success the model is constructed, the
search-parameter override is parsed, and the solver is called. Returns the
trace of steps reached and the outcome. -/
def runMain (cfg : Config) : List MainStep × MainOutcome :=
  if 0 < cfg.vrp_orders then
    if 0 < cfg.vrp_vehicles then
      if 0 < cfg.vrp_vehicle_hard_capacity ∧ 0 < cfg.vrp_vehicle_soft_capacity then
        if cfg.vrp_vehicle_soft_capacity < cfg.vrp_vehicle_hard_capacity then
          afterChecks cfg
            [MainStep.check_orders, MainStep.check_vehicles, MainStep.check_capacities]
        else
          ([MainStep.check_orders, MainStep.check_vehicles, MainStep.check_capacities],
            MainOutcome.fatal "The hard capacity must be higher than the soft capacity.")
      else
        afterChecks cfg [MainStep.check_orders, MainStep.check_vehicles]
    else
      ([MainStep.check_orders, MainStep.check_vehicles],
        MainOutcome.fatal "Specify a non-null vehicle fleet size.")
  else
    ([MainStep.check_orders], MainOutcome.fatal "Specify an instance size greater than 0.")

/-- Ceiling division, used to state the rounding direction of travel
times. -/
def ceilingDiv (a b : Nat) : Nat := (a + b - 1) / b

/-- The pseudo-random stream advanced by `n` steps. -/
def rngAdvance : Nat → RngState → RngState
  | 0, g => g
  | n + 1, g => rngAdvance n (rngNext g).2

/-- The location drawn by one `AddRandomLocation` call from stream state
`g` (two stream steps: one per coordinate). -/
def drawLocation (g : RngState) : Location :=
  let px := uniformBelow g (kXMax + 1)
  let py := uniformBelow px.2 (kYMax + 1)
  Location.mk px.1 py.1

/-- The locations produced by `n` consecutive `AddRandomLocation` draws
starting from stream state `g`. -/
def locationsFrom : Nat → RngState → List Location
  | 0, _ => []
  | n + 1, g => drawLocation g :: locationsFrom n (rngAdvance 2 g)

/-- The `k`-th location drawn from the stream starting at state `g`. -/
def nthRandomLocation (g : RngState) (k : Nat) : Location :=
  drawLocation (rngAdvance (2 * k) g)

/-- The same-vehicle groups the sample adds when the grouping flag is
set. -/
def addedSameVehicleGroups (cfg : Config) (e : Nat) : List (List Nat × Int) :=
  (buildModel { cfg with vrp_use_same_vehicle_costs := true } e).same_vehicle_groups

/-- A small instance with every flag at a legal value and deterministic
seeding, used to instantiate the general theorems. -/
def smallDeterministicConfig : Config :=
  { vrp_orders := 5
    vrp_vehicles := 3
    vrp_vehicle_hard_capacity := 80
    vrp_vehicle_soft_capacity := 40
    vrp_vehicle_soft_capacity_cost := 5000
    vrp_use_deterministic_random_seed := true
    vrp_use_same_vehicle_costs := false
    routing_search_parameters_ok := true }

/-- The small instance with the hard capacity flag at `0` (disabled per its
documentation); the capacity check is skipped, so the run is accepted. -/
def hardCapacityDisabledConfig : Config :=
  { smallDeterministicConfig with vrp_vehicle_hard_capacity := 0 }

/-- The small instance with the soft capacity flag at `0` (disabled per its
documentation). -/
def softCapacityDisabledConfig : Config :=
  { smallDeterministicConfig with vrp_vehicle_soft_capacity := 0 }

/-- The small instance with a malformed search-parameter override (the
override text fails to parse). -/
def badOverrideConfig : Config :=
  { smallDeterministicConfig with routing_search_parameters_ok := false }

/-- The small instance with the same-vehicle grouping flag set; its 5
non-depot nodes are fewer than `kMaxNodesPerGroup`. -/
def fiveOrderGroupingConfig : Config :=
  { smallDeterministicConfig with vrp_use_same_vehicle_costs := true }

/-- A location container holding two nodes at Manhattan distance 5, an
instance reachable by the generator (both coordinates lie in the grid). -/
def twoPointContainer : LocationContainer :=
  { speed := kSpeed
    locations := [Location.mk 0 0, Location.mk 5 0]
    rng := RngState.mk 0 }

/-! ### Theorems -/

/-- C1: with `vrp_vehicle_hard_capacity = 0` — "disabled" per the flag's own
documentation — the run passes every check and reaches the solver, yet the
sample hands the raw flag value to `AddDimension`: the Capacity dimension is
declared with cumulative upper bound `0`, not an effectively unbounded
sentinel, while keeping zero slack and the start cumul fixed to zero. A
bound of `0` forbids any load instead of disabling the bound. -/
theorem hard_capacity_zero_declares_zero_capacity_bound :
    (runMain hardCapacityDisabledConfig).2 = MainOutcome.finished ∧
    (buildModel hardCapacityDisabledConfig 0).dimensions.head? =
      some { name := "Capacity", evaluator := 1, slack_max := 0, capacity := 0,
             fix_start_cumul_to_zero := true } := by
  decide

/-- C2: with `vrp_vehicle_soft_capacity = 0` — "disabled" per the flag's own
documentation — the loop still attaches a soft upper bound to every
vehicle's route-end capacity cumul, with threshold `0` and the configured
per-unit cost, so a route ending with load 8 is charged `8 × 5000`; the
bound is attached even though soft capacity is disabled. -/
theorem soft_upper_bound_attached_despite_disabled_soft_capacity :
    (runMain softCapacityDisabledConfig).2 = MainOutcome.finished ∧
    (buildModel softCapacityDisabledConfig 0).soft_upper_bounds =
      [{ index := 6, bound := 0, coefficient := 5000 },
       { index := 7, bound := 0, coefficient := 5000 },
       { index := 8, bound := 0, coefficient := 5000 }] ∧
    softUpperBoundCost { index := 6, bound := 0, coefficient := 5000 } 8 = 40000 := by
  decide

/-- C3: the transit callback registered for the Time dimension is
`ServiceTimePlusTransition::Compute`, which equals
`kTimePerDemandUnit × Demand(i) + TravelTime(i, j)` with the demand taken at
the origin node `i`, and `kTimePerDemandUnit` is the fixed constant 300. -/
theorem time_transit_is_service_at_origin_plus_travel (cfg : Config) (e i j : Nat) :
    (buildModel cfg e).dimensions.getD 1 timeDimension = timeDimension ∧
    (buildModel cfg e).callbacks.getD timeDimension.evaluator (fun _ _ => 0) i j =
      kTimePerDemandUnit * (instanceDemand cfg e).atNode i +
        (instanceLocations cfg e).ManhattanTime i j ∧
    kTimePerDemandUnit = 300 :=
  ⟨rfl, rfl, rfl⟩

/-- C4 counterexample: with a malformed search-parameter override (and every
numeric flag valid), `main` constructs the index manager and the whole
routing model first and only then parses the override: the trace shows
`construct_model` strictly before `check_search_parameters`, where the run
aborts — so not all configuration errors are checked before model
construction. -/
theorem override_parse_check_runs_after_model_construction :
    runMain badOverrideConfig =
      ([MainStep.check_orders, MainStep.check_vehicles, MainStep.check_capacities,
        MainStep.construct_model, MainStep.check_search_parameters],
       MainOutcome.fatal "protobuf TextFormat MergeFromString failed") ∧
    (runMain badOverrideConfig).2.exitStatus ≠ 0 := by
  decide

/-- C5 counterexample: two locations at Manhattan distance 5 with the
sample's speed 10: travel time is the integer-division value 0, not the
ceiling 1 the claim requires. -/
theorem travel_time_not_ceiling_of_distance :
    twoPointContainer.ManhattanDistance 0 1 = 5 ∧
    twoPointContainer.ManhattanTime 0 1 = 0 ∧
    ceilingDiv (twoPointContainer.ManhattanDistance 0 1) kSpeed = 1 ∧
    twoPointContainer.ManhattanTime 0 1 ≠
      ceilingDiv (twoPointContainer.ManhattanDistance 0 1) kSpeed := by
  decide

/-- C6: with the deterministic-seeding flag set, the generated coordinates,
demands and time windows — and with them the entire assembled model — do not
depend on the external entropy source: two runs with identical parameters
yield identical instances and identical solver input. -/
theorem deterministic_seeding_reproduces_instance (cfg : Config) (e1 e2 : Nat) :
    instanceLocations { cfg with vrp_use_deterministic_random_seed := true } e1 =
      instanceLocations { cfg with vrp_use_deterministic_random_seed := true } e2 ∧
    instanceDemand { cfg with vrp_use_deterministic_random_seed := true } e1 =
      instanceDemand { cfg with vrp_use_deterministic_random_seed := true } e2 ∧
    instanceTimeWindows { cfg with vrp_use_deterministic_random_seed := true } e1 =
      instanceTimeWindows { cfg with vrp_use_deterministic_random_seed := true } e2 ∧
    buildModel { cfg with vrp_use_deterministic_random_seed := true } e1 =
      buildModel { cfg with vrp_use_deterministic_random_seed := true } e2 :=
  ⟨rfl, rfl, rfl, rfl⟩

/-- C9 counterexample: with 5 non-depot nodes and grouping enabled, exactly
one group is added and it has 5 nodes, so the groups are not all of the
fixed size `kMaxNodesPerGroup = 10`. -/
theorem trailing_group_smaller_than_ten :
    (buildModel fiveOrderGroupingConfig 0).same_vehicle_groups =
      [([1, 2, 3, 4, 5], 1000)] ∧
    ¬ ∀ p ∈ (buildModel fiveOrderGroupingConfig 0).same_vehicle_groups,
        p.1.length = kMaxNodesPerGroup := by
  decide

/-- C4 (amended): the instance-size, fleet-size and capacity checks run
eagerly, before any model construction, each aborting with its message; the
search-parameter override, however, is parsed only after the model is fully
constructed, and a parse failure aborts with non-zero status before the
solver is called. -/
theorem configuration_error_checks_order (cfg : Config) :
    (¬ 0 < cfg.vrp_orders →
      runMain cfg = ([MainStep.check_orders],
        MainOutcome.fatal "Specify an instance size greater than 0.")) ∧
    (0 < cfg.vrp_orders → ¬ 0 < cfg.vrp_vehicles →
      runMain cfg = ([MainStep.check_orders, MainStep.check_vehicles],
        MainOutcome.fatal "Specify a non-null vehicle fleet size.")) ∧
    (0 < cfg.vrp_orders → 0 < cfg.vrp_vehicles →
      0 < cfg.vrp_vehicle_hard_capacity → 0 < cfg.vrp_vehicle_soft_capacity →
      ¬ cfg.vrp_vehicle_soft_capacity < cfg.vrp_vehicle_hard_capacity →
      runMain cfg = ([MainStep.check_orders, MainStep.check_vehicles,
          MainStep.check_capacities],
        MainOutcome.fatal "The hard capacity must be higher than the soft capacity.")) ∧
    (0 < cfg.vrp_orders → 0 < cfg.vrp_vehicles →
      (0 < cfg.vrp_vehicle_hard_capacity → 0 < cfg.vrp_vehicle_soft_capacity →
        cfg.vrp_vehicle_soft_capacity < cfg.vrp_vehicle_hard_capacity) →
      cfg.routing_search_parameters_ok = false →
      MainStep.construct_model ∈ (runMain cfg).1 ∧
      MainStep.solve ∉ (runMain cfg).1 ∧
      (runMain cfg).2 = MainOutcome.fatal "protobuf TextFormat MergeFromString failed" ∧
      (runMain cfg).2.exitStatus ≠ 0) := by
  refine ⟨fun h1 => ?_, fun h1 h2 => ?_, fun h1 h2 h3 h4 h5 => ?_, fun h1 h2 hc h6 => ?_⟩
  · simp [runMain, h1]
  · simp [runMain, h1, h2]
  · have hcap : 0 < cfg.vrp_vehicle_hard_capacity ∧ 0 < cfg.vrp_vehicle_soft_capacity :=
      ⟨h3, h4⟩
    simp [runMain, h1, h2, hcap, h5]
  · by_cases hcap : 0 < cfg.vrp_vehicle_hard_capacity ∧ 0 < cfg.vrp_vehicle_soft_capacity
    · have hlt := hc hcap.1 hcap.2
      simp [runMain, afterChecks, h1, h2, hcap, hlt, h6, MainOutcome.exitStatus]
    · simp [runMain, afterChecks, h1, h2, hcap, h6, MainOutcome.exitStatus]

/-- C4 witness: at concrete instances the amended theorem yields the eager
instance-size abort and, for the malformed override, the
constructed-then-aborted behaviour. -/
theorem configuration_error_checks_order_witness :
    (runMain { smallDeterministicConfig with vrp_orders := 0 } =
      ([MainStep.check_orders],
        MainOutcome.fatal "Specify an instance size greater than 0.")) ∧
    MainStep.construct_model ∈ (runMain badOverrideConfig).1 ∧
    MainStep.solve ∉ (runMain badOverrideConfig).1 ∧
    (runMain badOverrideConfig).2 =
      MainOutcome.fatal "protobuf TextFormat MergeFromString failed" ∧
    (runMain badOverrideConfig).2.exitStatus ≠ 0 :=
  ⟨(configuration_error_checks_order
      { smallDeterministicConfig with vrp_orders := 0 }).1 (by decide),
   (configuration_error_checks_order badOverrideConfig).2.2.2
    (by decide) (by decide) (fun _ _ => by decide) (by decide)⟩

/-- Speed is never changed after the container is constructed. -/
theorem addLocationsGo_speed (n : Nat) (c : LocationContainer) :
    (addLocationsGo n c).speed = c.speed := by
  induction n generalizing c with
  | zero => rfl
  | succ n ih =>
    rw [addLocationsGo, ih]
    rfl

/-- C5 (amended): for every pair of nodes of the generated instance, travel
time is the floor of the Manhattan distance divided by the fixed speed
constant 10 — integer division rounds down, and the same downward rounding
applies to every pair. -/
theorem travel_time_is_floor_of_distance_over_speed (cfg : Config) (e i j : Nat) :
    (instanceLocations cfg e).ManhattanTime i j =
      (instanceLocations cfg e).ManhattanDistance i j / kSpeed := by
  have hs : (instanceLocations cfg e).speed = kSpeed := by
    simpa [instanceLocations] using
      addLocationsGo_speed (cfg.vrp_orders.toNat + 1)
        (LocationContainer.mk kSpeed [] (RngState.mk (instanceSeed cfg e)))
  simp [LocationContainer.ManhattanTime, Location.TimeToLocation,
    LocationContainer.ManhattanDistance, hs]

/-- Every window produced by the window loop has a start drawn below
`kHorizon - kTWDuration` and width exactly `kTWDuration`. -/
theorem windowsGo_mem {n o : Nat} {g : RngState} {w : Nat × Nat × Nat}
    (h : w ∈ windowsGo n o g) :
    w.2.1 < kHorizon - kTWDuration ∧ w.2.2 = w.2.1 + kTWDuration := by
  induction n generalizing o g with
  | zero => simp [windowsGo] at h
  | succ n ih =>
    simp only [windowsGo, List.mem_cons] at h
    rcases h with h | h
    · subst h
      refine ⟨?_, rfl⟩
      have : (0 : Nat) < kHorizon - kTWDuration := by decide
      simpa [uniformBelow] using Nat.mod_lt _ this
    · exact ih h

/-- C7: every time window attached to a non-depot node satisfies
`0 ≤ start`, `start ≤ kHorizon - kTWDuration` (the start offset lies in
`[0, horizon − windowDuration]`), `end = start + kTWDuration` (the width is
exactly the configured duration) and `end ≤ kHorizon`. -/
theorem time_window_within_horizon (cfg : Config) (e : Nat) (w : Nat × Nat × Nat)
    (h : w ∈ (buildModel cfg e).time_windows) :
    0 ≤ w.2.1 ∧ w.2.1 ≤ kHorizon - kTWDuration ∧
    w.2.2 = w.2.1 + kTWDuration ∧ w.2.2 ≤ kHorizon := by
  have h' : w ∈ windowsGo cfg.vrp_orders.toNat 1
      (RngState.mk (instanceSeed cfg e)) := by
    simpa [buildModel, instanceTimeWindows] using h
  have := windowsGo_mem h'
  refine ⟨Nat.zero_le _, by omega, this.2, ?_⟩
  have hlt := this.1
  have hk : kHorizon - kTWDuration + kTWDuration = kHorizon := by decide
  omega

/-- C7 witness: the first window of the small deterministic instance meets
all the window bounds. -/
theorem time_window_within_horizon_witness :
    0 ≤ ((buildModel smallDeterministicConfig 0).time_windows.headD (0, 0, 0)).2.1 ∧
    ((buildModel smallDeterministicConfig 0).time_windows.headD (0, 0, 0)).2.1 ≤
      kHorizon - kTWDuration ∧
    ((buildModel smallDeterministicConfig 0).time_windows.headD (0, 0, 0)).2.2 =
      ((buildModel smallDeterministicConfig 0).time_windows.headD (0, 0, 0)).2.1 +
        kTWDuration ∧
    ((buildModel smallDeterministicConfig 0).time_windows.headD (0, 0, 0)).2.2 ≤
      kHorizon :=
  time_window_within_horizon smallDeterministicConfig 0 _ (by decide)

/-- A disjunction target absent from the list: no order index beyond the
instance size appears among the added disjunctions. -/
theorem disjunctionList_count_zero (N n : Nat) (h : N < n) :
    (((List.range N).map fun k => (([k + 1] : List Nat), kPenalty)).count
      ([n], kPenalty)) = 0 := by
  rw [List.count_eq_zero]
  intro hmem
  rcases List.mem_map.mp hmem with ⟨k, hk, hfk⟩
  have hk' : k < N := List.mem_range.mp hk
  have : k + 1 = n := by
    have := congrArg Prod.fst hfk
    simpa using this
  omega

/-- Each order in range appears exactly once among the added
disjunctions. -/
theorem disjunctionList_count_one (N n : Nat) (h1 : 1 ≤ n) (h2 : n ≤ N) :
    (((List.range N).map fun k => (([k + 1] : List Nat), kPenalty)).count
      ([n], kPenalty)) = 1 := by
  induction N with
  | zero => omega
  | succ N ih =>
    rw [List.range_succ, List.map_append, List.count_append]
    by_cases hn : n ≤ N
    · rw [ih hn]
      have hne : ¬ ((([N + 1] : List Nat), kPenalty) = (([n] : List Nat), kPenalty)) := by
        simp
        omega
      simp [List.count_cons, hne]
    · have hn' : n = N + 1 := by omega
      subst hn'
      rw [disjunctionList_count_zero N (N + 1) (by omega)]
      simp [List.count_cons]

/-- C8: every non-depot node `1 .. N` gets exactly one disjunction, whose
node set is the singleton containing it, all with the fixed penalty
`kPenalty = 10000000`; the depot (node 0) appears in no disjunction. -/
theorem singleton_disjunction_per_order (cfg : Config) (e : Nat) :
    (buildModel cfg e).disjunctions.length = cfg.vrp_orders.toNat ∧
    (∀ d ∈ (buildModel cfg e).disjunctions,
      d.2 = kPenalty ∧ ∃ n, d.1 = [n] ∧ 1 ≤ n ∧ n ≤ cfg.vrp_orders.toNat) ∧
    (∀ n : Nat, 1 ≤ n → n ≤ cfg.vrp_orders.toNat →
      (buildModel cfg e).disjunctions.count ([n], kPenalty) = 1) ∧
    (∀ d ∈ (buildModel cfg e).disjunctions, 0 ∉ d.1) := by
  have hrep : (buildModel cfg e).disjunctions =
      (List.range cfg.vrp_orders.toNat).map fun k => (([k + 1] : List Nat), kPenalty) :=
    rfl
  refine ⟨?_, ?_, ?_, ?_⟩
  · rw [hrep]
    simp
  · intro d hd
    rw [hrep] at hd
    rcases List.mem_map.mp hd with ⟨k, hk, hfk⟩
    have hk' : k < cfg.vrp_orders.toNat := List.mem_range.mp hk
    subst hfk
    exact ⟨rfl, k + 1, rfl, by omega, by omega⟩
  · intro n h1 h2
    rw [hrep]
    exact disjunctionList_count_one _ n h1 h2
  · intro d hd
    rw [hrep] at hd
    rcases List.mem_map.mp hd with ⟨k, _, hfk⟩
    subst hfk
    simp

/-- C8 witness: in the small deterministic instance, node 1 is covered by
exactly one singleton disjunction. -/
theorem singleton_disjunction_per_order_witness :
    (buildModel smallDeterministicConfig 0).disjunctions.count ([1], kPenalty) = 1 :=
  (singleton_disjunction_per_order smallDeterministicConfig 0).2.2.1 1
    (by decide) (by decide)

/-- Flattening the groups built by the grouping loop yields the pending
group followed by the processed orders, in order. -/
theorem groupsGo_flatten (n : Nat) : ∀ (o : Nat) (cur : List Nat),
    (groupsGo n o cur).flatten = cur ++ ordersFrom n o := by
  induction n with
  | zero =>
    intro o cur
    by_cases h : cur.isEmpty
    · have hnil : cur = [] := List.isEmpty_iff.mp h
      simp [groupsGo, h, hnil, ordersFrom]
    · simp [groupsGo, h, ordersFrom]
  | succ n ih =>
    intro o cur
    simp only [groupsGo]
    by_cases h : (cur ++ [o]).length = kMaxNodesPerGroup
    · rw [if_pos h, List.flatten_cons, ih (o + 1) []]
      simp [ordersFrom]
    · rw [if_neg h, ih (o + 1) (cur ++ [o])]
      simp [ordersFrom]

/-- Membership in a run of consecutive orders. -/
theorem mem_ordersFrom {n : Nat} : ∀ {o m : Nat},
    m ∈ ordersFrom n o ↔ o ≤ m ∧ m < o + n := by
  induction n with
  | zero =>
    intro o m
    rw [ordersFrom]
    simp only [List.not_mem_nil, false_iff]
    omega
  | succ n ih =>
    intro o m
    simp [ordersFrom, List.mem_cons, ih]
    omega

/-- A run of consecutive orders has no duplicates. -/
theorem ordersFrom_nodup (n : Nat) : ∀ o, (ordersFrom n o).Nodup := by
  induction n with
  | zero => intro o; simp [ordersFrom]
  | succ n ih =>
    intro o
    rw [ordersFrom, List.nodup_cons]
    refine ⟨fun hmem => ?_, ih (o + 1)⟩
    have := mem_ordersFrom.mp hmem
    omega

/-- Every group built by the grouping loop is non-empty and holds at most
`kMaxNodesPerGroup` nodes. -/
theorem groupsGo_sizes (n : Nat) : ∀ (o : Nat) (cur : List Nat),
    cur.length < kMaxNodesPerGroup →
    ∀ g ∈ groupsGo n o cur, 1 ≤ g.length ∧ g.length ≤ kMaxNodesPerGroup := by
  induction n with
  | zero =>
    intro o cur hcur g hg
    by_cases h : cur.isEmpty
    · simp [groupsGo, h] at hg
    · simp [groupsGo, h] at hg
      subst hg
      have hne : g ≠ [] := fun hnil => by simp [hnil] at h
      have hpos : 0 < g.length := List.length_pos.mpr hne
      omega
  | succ n ih =>
    intro o cur hcur g hg
    simp only [groupsGo] at hg
    by_cases h : (cur ++ [o]).length = kMaxNodesPerGroup
    · rw [if_pos h] at hg
      rcases List.mem_cons.mp hg with h' | h'
      · subst h'
        constructor
        · rw [h]; decide
        · exact Nat.le_of_eq h
      · exact ih (o + 1) [] (by decide) g h'
    · rw [if_neg h] at hg
      have hlen : (cur ++ [o]).length = cur.length + 1 := by simp
      have hk : kMaxNodesPerGroup = 10 := rfl
      have hlt : (cur ++ [o]).length < kMaxNodesPerGroup := by
        rw [hk] at hcur h ⊢
        omega
      exact ih (o + 1) (cur ++ [o]) hlt g hg

/-- Every group flushed before the last one holds exactly
`kMaxNodesPerGroup` nodes. -/
theorem groupsGo_dropLast (n : Nat) : ∀ (o : Nat) (cur : List Nat),
    cur.length < kMaxNodesPerGroup →
    ∀ g ∈ (groupsGo n o cur).dropLast, g.length = kMaxNodesPerGroup := by
  induction n with
  | zero =>
    intro o cur hcur g hg
    by_cases h : cur.isEmpty <;> simp [groupsGo, h] at hg
  | succ n ih =>
    intro o cur hcur g hg
    simp only [groupsGo] at hg
    by_cases h : (cur ++ [o]).length = kMaxNodesPerGroup
    · rw [if_pos h] at hg
      rcases hrest : groupsGo n (o + 1) [] with _ | ⟨b, l⟩
      · rw [hrest] at hg
        simp at hg
      · rw [hrest] at hg
        rw [show ((cur ++ [o]) :: b :: l).dropLast = (cur ++ [o]) :: (b :: l).dropLast
          from rfl] at hg
        rcases List.mem_cons.mp hg with h' | h'
        · rw [h']
          exact h
        · have := ih (o + 1) [] (by decide) g
          rw [hrest] at this
          exact this h'
    · rw [if_neg h] at hg
      have hk : kMaxNodesPerGroup = 10 := rfl
      have hlt : (cur ++ [o]).length < kMaxNodesPerGroup := by
        have hlen : (cur ++ [o]).length = cur.length + 1 := by simp
        rw [hk] at hcur h ⊢
        omega
      exact ih (o + 1) (cur ++ [o]) hlt g hg

/-- Projecting the first components out of a constant pairing recovers the
original list. -/
theorem map_fst_map_pair {α β : Type} (c : β) : ∀ l : List α,
    (l.map fun g => (g, c)).map Prod.fst = l := by
  intro l
  induction l with
  | nil => rfl
  | cons a l ih => simp [ih]

/-- `dropLast` commutes with `map`. -/
theorem map_dropLast {α β : Type} (f : α → β) : ∀ l : List α,
    (l.map f).dropLast = l.dropLast.map f := by
  intro l
  induction l with
  | nil => rfl
  | cons a l ih =>
    cases l with
    | nil => rfl
    | cons b l' =>
      simp only [List.map_cons] at ih ⊢
      rw [show ((f a :: f b :: l'.map f)).dropLast = f a :: (f b :: l'.map f).dropLast
        from rfl]
      rw [show ((a : α) :: b :: l').dropLast = a :: (b :: l').dropLast from rfl]
      rw [List.map_cons, ih]

/-- C9 (amended): when the grouping flag is set, the non-depot nodes are
partitioned in index order into consecutive groups — each flushed group
holds exactly `kMaxNodesPerGroup = 10` nodes except possibly the final one,
which holds the remaining 1 to 10 nodes — one soft same-vehicle constraint
with cost `kSameVehicleCost = 1000` is added per group, and every non-depot
node belongs to exactly one added group (the concatenation of the groups is
exactly the duplicate-free run of orders `1 .. N`). -/
theorem same_vehicle_groups_structure (cfg : Config) (e : Nat) :
    ((addedSameVehicleGroups cfg e).map Prod.fst).flatten =
      ordersFrom cfg.vrp_orders.toNat 1 ∧
    (∀ m : Nat, m ∈ ((addedSameVehicleGroups cfg e).map Prod.fst).flatten ↔
      1 ≤ m ∧ m < cfg.vrp_orders.toNat + 1) ∧
    ((addedSameVehicleGroups cfg e).map Prod.fst).flatten.Nodup ∧
    (∀ p ∈ addedSameVehicleGroups cfg e,
      p.2 = kSameVehicleCost ∧ 1 ≤ p.1.length ∧ p.1.length ≤ kMaxNodesPerGroup) ∧
    (∀ p ∈ (addedSameVehicleGroups cfg e).dropLast,
      p.1.length = kMaxNodesPerGroup) := by
  have hrep : addedSameVehicleGroups cfg e =
      (groupsGo cfg.vrp_orders.toNat 1 []).map fun g => (g, kSameVehicleCost) := rfl
  have hmap : (addedSameVehicleGroups cfg e).map Prod.fst =
      groupsGo cfg.vrp_orders.toNat 1 [] := by
    rw [hrep]
    exact map_fst_map_pair kSameVehicleCost _
  have hflat : ((addedSameVehicleGroups cfg e).map Prod.fst).flatten =
      ordersFrom cfg.vrp_orders.toNat 1 := by
    rw [hmap]
    simpa using groupsGo_flatten cfg.vrp_orders.toNat 1 []
  refine ⟨hflat, ?_, ?_, ?_, ?_⟩
  · intro m
    rw [hflat, mem_ordersFrom]
    omega
  · rw [hflat]
    exact ordersFrom_nodup _ 1
  · intro p hp
    rw [hrep] at hp
    rcases List.mem_map.mp hp with ⟨g, hg, hfg⟩
    subst hfg
    exact ⟨rfl, groupsGo_sizes _ 1 [] (by decide) g hg⟩
  · intro p hp
    rw [hrep, map_dropLast] at hp
    rcases List.mem_map.mp hp with ⟨g, hg, hfg⟩
    subst hfg
    exact groupsGo_dropLast _ 1 [] (by decide) g hg

/-- C9 witness: in the 5-order instance the single added group carries the
cost 1000 and a size between 1 and 10. -/
theorem same_vehicle_groups_structure_witness :
    (([1, 2, 3, 4, 5] : List Nat), (1000 : Int)).2 = kSameVehicleCost ∧
    1 ≤ (([1, 2, 3, 4, 5] : List Nat), (1000 : Int)).1.length ∧
    (([1, 2, 3, 4, 5] : List Nat), (1000 : Int)).1.length ≤ kMaxNodesPerGroup :=
  (same_vehicle_groups_structure smallDeterministicConfig 0).2.2.2.1
    (([1, 2, 3, 4, 5] : List Nat), (1000 : Int)) (by decide)

/-- Each loop iteration appends exactly the location drawn from the
container's current stream state. -/
theorem addLocationsGo_locations (n : Nat) : ∀ c : LocationContainer,
    (addLocationsGo n c).locations = c.locations ++ locationsFrom n c.rng := by
  induction n with
  | zero =>
    intro c
    rw [show addLocationsGo 0 c = c from rfl,
      show locationsFrom 0 c.rng = ([] : List Location) from rfl, List.append_nil]
  | succ n ih =>
    intro c
    rw [addLocationsGo, ih]
    rw [show (c.AddRandomLocation kXMax kYMax).locations
        = c.locations ++ [drawLocation c.rng] from rfl]
    rw [show (c.AddRandomLocation kXMax kYMax).rng = rngAdvance 2 c.rng from rfl]
    rw [locationsFrom]
    rw [List.append_assoc, List.singleton_append]

/-- The stream spec produces one location per draw. -/
theorem locationsFrom_length (n : Nat) : ∀ g, (locationsFrom n g).length = n := by
  induction n with
  | zero => intro g; rfl
  | succ n ih =>
    intro g
    simp [locationsFrom, ih]

/-- Advancing the stream distributes over addition of step counts. -/
theorem rngAdvance_add (m n : Nat) : ∀ g,
    rngAdvance (m + n) g = rngAdvance n (rngAdvance m g) := by
  induction m with
  | zero =>
    intro g
    rw [Nat.zero_add]
    simp only [rngAdvance]
  | succ m ih =>
    intro g
    have h1 : m + 1 + n = m + n + 1 := by omega
    rw [h1]
    simp only [rngAdvance]
    exact ih ((rngNext g).2)

/-- The `k`-th element of the generated location list is the `k`-th draw of
the stream. -/
theorem locationsFrom_get (n : Nat) : ∀ (g : RngState) (k : Nat), k < n →
    (locationsFrom n g)[k]? = some (nthRandomLocation g k) := by
  induction n with
  | zero =>
    intro g k hk
    omega
  | succ n ih =>
    intro g k hk
    cases k with
    | zero =>
      rw [locationsFrom, List.getElem?_cons_zero]
      rw [show nthRandomLocation g 0 = drawLocation g from rfl]
    | succ k =>
      have hk' : k < n := by omega
      rw [locationsFrom, List.getElem?_cons_succ]
      rw [ih _ k hk']
      rw [show nthRandomLocation g (k + 1)
          = drawLocation (rngAdvance (2 * (k + 1)) g) from rfl]
      rw [show nthRandomLocation (rngAdvance 2 g) k
          = drawLocation (rngAdvance (2 * k) (rngAdvance 2 g)) from rfl]
      rw [show (2 : Nat) * (k + 1) = 2 + 2 * k by ring]
      rw [rngAdvance_add]

/-- C10: the location loop runs over all `N + 1` nodes including node 0:
the depot's coordinates are the `0`-th draw of the very same uniform random
location stream every order node is drawn from, not a fixed or central
position. -/
theorem depot_location_drawn_from_shared_stream (cfg : Config) (e : Nat) :
    (instanceLocations cfg e).locations.length = cfg.vrp_orders.toNat + 1 ∧
    ∀ k, k ≤ cfg.vrp_orders.toNat →
      (instanceLocations cfg e).locations[k]? =
        some (nthRandomLocation (RngState.mk (instanceSeed cfg e)) k) := by
  have hrep : (instanceLocations cfg e).locations =
      locationsFrom (cfg.vrp_orders.toNat + 1) (RngState.mk (instanceSeed cfg e)) := by
    simpa using addLocationsGo_locations (cfg.vrp_orders.toNat + 1)
      (LocationContainer.mk kSpeed [] (RngState.mk (instanceSeed cfg e)))
  constructor
  · rw [hrep, locationsFrom_length]
  · intro k hk
    rw [hrep]
    exact locationsFrom_get _ _ k (by omega)

/-- C10 witness: in the small deterministic instance the depot's stored
location is the `0`-th draw of the shared stream. -/
theorem depot_location_drawn_from_shared_stream_witness :
    (instanceLocations smallDeterministicConfig 0).locations[0]? =
      some (nthRandomLocation (RngState.mk (instanceSeed smallDeterministicConfig 0)) 0) :=
  (depot_location_drawn_from_shared_stream smallDeterministicConfig 0).2 0 (by decide)

end OrToolsCvrptw
